import Mathlib

/-!
# Verification of the k8s-capacity recommendation engine

Shallow embedding of the formatting / parsing / query logic of
`cmd/recommend.go` (the variant carrying `formatCPU`, `formatMemory`,
`convertMemoryToMiB`, `queryPrometheus`, `queryPrometheusMetric`,
`recommendLimitRangesFunc` and the variadic `max` helper).

Modelling conventions:
* Go `float64` values are modelled as the exact rational numbers they
  denote (`ℚ`).  All constants appearing in the claims (`0.05`, `0.12`,
  `0.0625`, `1023.5`, …) are exactly representable as binary doubles or
  round to the double whose comparisons against the code's thresholds
  agree with the rational comparisons, so the rational model is exact on
  the inputs the claims speak about.
* `fmt.Sprintf("%.0f", x)` is modelled by `fmtF0`: Go's `strconv`
  rounds the exact binary value to the nearest integer with ties going
  to the even neighbour (`shouldRoundUp` in `strconv/decimal.go`), and a
  negative value keeps its sign.
* `fmt.Sscanf(s, "%f%s", &value, &unit)` is modelled by `scanFloat`:
  a leading optional sign, decimal digits, an optional fractional part
  and an optional exponent part (markers `eEpP`, as consumed by `fmt`'s
  `floatToken` on a decimal token; a `p`/`P` marker or a digit-less
  exponent makes `ParseFloat` reject the token) are consumed; the
  remaining characters form the unit token (the inputs in play contain
  no whitespace, so `%s` takes the whole remainder).  A scan error
  leaves `value` at `0` and `unit` empty, exactly as in Go where the
  error returned by `Sscanf` is discarded.  The `Inf`/`NaN`/hexadecimal
  token forms are outside the modelled fragment; where a theorem
  quantifies over unit suffixes, `plainUnit` keeps the inputs inside
  the fragment on which model and code agree.
* The process-wide mutable configuration read by `queryPrometheus`
  (`timeWindow`, `cpuPercentile`, `memoryPercentile`) is modelled by
  explicit state passing of a `Config` record; the PromQL string
  interpolation is abstracted to the parameters actually interpolated.
* The HTTP exchange performed by `queryPrometheusMetric` is modelled by
  a `FetchOutcome` describing the observable response; the function
  returns `Option ℚ`, `none` marking the one path on which the Go code
  panics (indexing `Value[1]` of a too-short value array).
-/

/-! ## Decimal digit rendering (model of the integer output of `%.0f`) -/

/-- The ASCII character of a decimal digit. -/
def digitChar (d : ℕ) : Char := Char.ofNat (48 + d)

/-- Is `c` an ASCII decimal digit? -/
def isDigitChar (c : Char) : Bool := decide (48 ≤ c.toNat) && decide (c.toNat ≤ 57)

/-- The numeric value of an ASCII decimal digit. -/
def digitVal (c : Char) : ℕ := c.toNat - 48

/-- Most-significant-first decimal digits of `n`, driven by explicit fuel
so that the definition is structurally recursive. -/
def digitsMSBAux : ℕ → ℕ → List ℕ
  | 0, _ => []
  | fuel + 1, n => if n = 0 then [] else digitsMSBAux fuel (n / 10) ++ [n % 10]

/-- Most-significant-first decimal digits of `n` (`[0]` for `0`). -/
def digitsOf (n : ℕ) : List ℕ := if n = 0 then [0] else digitsMSBAux n n

/-- The value denoted by a most-significant-first digit list. -/
def natOfDigitsMSB (ds : List ℕ) : ℕ := ds.foldl (fun a d => 10 * a + d) 0

/-- Decimal rendering of a natural number, as Go prints integers. -/
def natRepr (n : ℕ) : String := String.mk ((digitsOf n).map digitChar)

theorem digitsMSBAux_lt (fuel n : ℕ) : ∀ d ∈ digitsMSBAux fuel n, d < 10 := by
  induction fuel generalizing n with
  | zero => intro d hd; simp [digitsMSBAux] at hd
  | succ fuel ih =>
    intro d hd
    simp only [digitsMSBAux] at hd
    by_cases h : n = 0
    · simp [h] at hd
    · simp only [h, if_false, List.mem_append, List.mem_singleton] at hd
      rcases hd with hd | hd
      · exact ih (n / 10) d hd
      · omega

theorem natOfDigitsMSB_append_one (ds : List ℕ) (d : ℕ) :
    natOfDigitsMSB (ds ++ [d]) = 10 * natOfDigitsMSB ds + d := by
  simp [natOfDigitsMSB, List.foldl_append]

theorem natOfDigitsMSB_digitsMSBAux (fuel n : ℕ) (h : n ≤ fuel) :
    natOfDigitsMSB (digitsMSBAux fuel n) = n := by
  induction fuel generalizing n with
  | zero => interval_cases n; simp [digitsMSBAux, natOfDigitsMSB]
  | succ fuel ih =>
    by_cases h0 : n = 0
    · simp [digitsMSBAux, h0, natOfDigitsMSB]
    · have hdiv : n / 10 ≤ fuel := by
        have : n / 10 < n := Nat.div_lt_self (Nat.pos_of_ne_zero h0) (by norm_num)
        omega
      simp only [digitsMSBAux, h0, if_false]
      rw [natOfDigitsMSB_append_one, ih _ hdiv]
      omega

theorem natOfDigitsMSB_digitsOf (n : ℕ) : natOfDigitsMSB (digitsOf n) = n := by
  by_cases h : n = 0
  · simp [digitsOf, h, natOfDigitsMSB]
  · simp only [digitsOf, h, if_false]
    exact natOfDigitsMSB_digitsMSBAux n n le_rfl

theorem digitsOf_lt (n : ℕ) : ∀ d ∈ digitsOf n, d < 10 := by
  by_cases h : n = 0
  · intro d hd; simp [digitsOf, h] at hd; omega
  · simp only [digitsOf, h, if_false]
    exact digitsMSBAux_lt n n

theorem digitsOf_ne_nil (n : ℕ) : digitsOf n ≠ [] := by
  by_cases h : n = 0
  · simp [digitsOf, h]
  · simp only [digitsOf, h, if_false]
    cases n with
    | zero => exact absurd rfl h
    | succ m => simp [digitsMSBAux]

/-! ## Scanning (model of `fmt.Sscanf` with `"%f%s"`) -/

/-- Consume a maximal run of leading decimal digits. -/
def takeDigits : List Char → List ℕ × List Char
  | [] => ([], [])
  | c :: cs =>
    if isDigitChar c then
      let p := takeDigits cs
      (digitVal c :: p.1, p.2)
    else ([], c :: cs)

/-- Is `c` one of the exponent markers Go's float token scan accepts on
a decimal token (`eEpP` in `fmt`'s `floatToken`)? -/
def isExpChar (c : Char) : Bool := c = 'e' || c = 'E' || c = 'p' || c = 'P'

/-- The value of an integer digit part plus a fraction digit part. -/
def mantissaVal (ds fs : List ℕ) : ℚ :=
  (natOfDigitsMSB ds : ℚ) + (natOfDigitsMSB fs : ℚ) / (10 : ℚ) ^ fs.length

/-- Scan the exponent part after an accepted exponent marker `c`: an
optional sign, then decimal digits, applied to the mantissa `m`.  A
`p`/`P` marker on a decimal token, or a marker with no exponent digits,
makes `ParseFloat` reject the whole token, so the scan fails (`none`). -/
def scanExponentPart (m : ℚ) (c : Char) (rest : List Char) : Option (ℚ × List Char) :=
  let sp :=
    match rest with
    | d :: rest2 =>
      if d = '-' then (true, rest2)
      else if d = '+' then (false, rest2)
      else (false, d :: rest2)
    | [] => (false, ([] : List Char))
  match takeDigits sp.2 with
  | (es, rest3) =>
    if c = 'p' ∨ c = 'P' then none
    else if es = [] then none
    else if sp.1 then some (m / (10 : ℚ) ^ natOfDigitsMSB es, rest3)
    else some (m * (10 : ℚ) ^ natOfDigitsMSB es, rest3)

/-- Scan an unsigned decimal literal — digits, an optional fractional
part, and an optional exponent part — from the front of `cs`; `none`
when the token is one `ParseFloat` rejects (no digits at all, or a bad
exponent part). -/
def scanUnsigned (cs : List Char) : Option (ℚ × List Char) :=
  match takeDigits cs with
  | (ds, c :: rest2) =>
    if c = '.' then
      match takeDigits rest2 with
      | (fs, rest3) =>
        if ds = [] && fs = [] then none
        else
          match rest3 with
          | e :: rest4 =>
            if isExpChar e then scanExponentPart (mantissaVal ds fs) e rest4
            else some (mantissaVal ds fs, e :: rest4)
          | [] => some (mantissaVal ds fs, [])
    else if isExpChar c then
      if ds = [] then none
      else scanExponentPart (natOfDigitsMSB ds : ℚ) c rest2
    else if ds = [] then none
    else some ((natOfDigitsMSB ds : ℚ), c :: rest2)
  | (ds, []) => if ds = [] then none else some ((natOfDigitsMSB ds : ℚ), [])

/-- Scan a signed decimal literal, the model of Go's `%f` conversion on
decimal tokens (the `Inf`/`NaN`/hexadecimal token forms remain outside
the modelled fragment; no theorem quantifies over an input that reaches
them). -/
def scanFloat (cs : List Char) : Option (ℚ × List Char) :=
  match cs with
  | c :: rest =>
    if c = '-' then (scanUnsigned rest).map (fun p => (-p.1, p.2))
    else if c = '+' then scanUnsigned rest
    else scanUnsigned (c :: rest)
  | [] => none

/-- The remainder left after the digits starts with no digit, no decimal
point and no exponent marker, so the numeric token stops exactly there
— for the model and for Go's `floatToken` alike. -/
def nonNumericHead (rest : List Char) : Prop :=
  match rest with
  | [] => True
  | c :: _ => isDigitChar c = false ∧ c ≠ '.' ∧ isExpChar c = false

theorem digitChar_spec (d : ℕ) (h : d < 10) :
    isDigitChar (digitChar d) = true ∧ digitVal (digitChar d) = d ∧
      digitChar d ≠ '-' ∧ digitChar d ≠ '+' ∧ digitChar d ≠ '.' := by
  interval_cases d <;> exact ⟨by decide, by decide, by decide, by decide, by decide⟩

theorem takeDigits_map_append (ds : List ℕ) (rest : List Char)
    (hds : ∀ d ∈ ds, d < 10) (hrest : nonNumericHead rest) :
    takeDigits (ds.map digitChar ++ rest) = (ds, rest) := by
  induction ds with
  | nil =>
    simp only [List.map_nil, List.nil_append]
    cases rest with
    | nil => rfl
    | cons c cs =>
      obtain ⟨hc, _⟩ := hrest
      simp [takeDigits, hc]
  | cons d ds ih =>
    have hd : d < 10 := hds d (by simp)
    obtain ⟨hdig, hval, _, _, _⟩ := digitChar_spec d hd
    simp only [List.map_cons, List.cons_append, takeDigits, hdig, if_true,
      List.append_eq]
    rw [ih (fun x hx => hds x (by simp [hx]))]
    simp [hval]

theorem scanUnsigned_digits (n : ℕ) (rest : List Char) (hrest : nonNumericHead rest) :
    scanUnsigned ((digitsOf n).map digitChar ++ rest) = some ((n : ℚ), rest) := by
  have htake := takeDigits_map_append (digitsOf n) rest (digitsOf_lt n) hrest
  have hne : digitsOf n ≠ [] := digitsOf_ne_nil n
  have hval : ((natOfDigitsMSB (digitsOf n) : ℕ) : ℚ) = (n : ℚ) := by
    rw [natOfDigitsMSB_digitsOf]
  cases rest with
  | nil =>
    unfold scanUnsigned
    rw [htake]
    simp [hne, hval]
  | cons c cs =>
    obtain ⟨_, hdot, hexp⟩ := hrest
    unfold scanUnsigned
    rw [htake]
    simp [hdot, hexp, hne, hval]

theorem scanFloat_digits (n : ℕ) (rest : List Char) (hrest : nonNumericHead rest) :
    scanFloat ((digitsOf n).map digitChar ++ rest) = some ((n : ℚ), rest) := by
  obtain ⟨d, ds, hds⟩ : ∃ d ds, digitsOf n = d :: ds := by
    cases h : digitsOf n with
    | nil => exact absurd h (digitsOf_ne_nil n)
    | cons d ds => exact ⟨d, ds, rfl⟩
  have hd : d < 10 := digitsOf_lt n d (by rw [hds]; simp)
  obtain ⟨_, _, hminus, hplus, _⟩ := digitChar_spec d hd
  have hcons : (digitsOf n).map digitChar ++ rest =
      digitChar d :: (ds.map digitChar ++ rest) := by
    rw [hds]; simp
  rw [hcons]
  simp only [scanFloat]
  rw [if_neg hminus, if_neg hplus, ← List.cons_append, ← List.map_cons, ← hds]
  exact scanUnsigned_digits n rest hrest

/-! ## Round-half-even (the rounding of Go's `%.0f` on exact values) -/

/-- Round to the nearest integer, ties to the even neighbour — the
rounding `strconv` applies when `fmt` prints with precision 0. -/
def roundHalfEven (x : ℚ) : ℤ :=
  if x - Int.floor x < 1/2 then Int.floor x
  else if x - Int.floor x > 1/2 then Int.floor x + 1
  else if Int.floor x % 2 = 0 then Int.floor x else Int.floor x + 1

theorem roundHalfEven_bounds (x : ℚ) :
    Int.floor x ≤ roundHalfEven x ∧ roundHalfEven x ≤ Int.floor x + 1 := by
  unfold roundHalfEven
  split_ifs <;> omega

theorem abs_sub_roundHalfEven (x : ℚ) : |x - (roundHalfEven x : ℚ)| ≤ 1/2 := by
  have hfl : (Int.floor x : ℚ) ≤ x := Int.floor_le x
  have hfu : x < (Int.floor x : ℚ) + 1 := Int.lt_floor_add_one x
  unfold roundHalfEven
  split_ifs with h1 h2 h3 <;> rw [abs_sub_le_iff] <;> constructor <;> push_cast <;> linarith

theorem roundHalfEven_intCast (n : ℤ) : roundHalfEven (n : ℚ) = n := by
  unfold roundHalfEven
  rw [Int.floor_intCast]
  norm_num

theorem roundHalfEven_mono {x y : ℚ} (h : x ≤ y) :
    roundHalfEven x ≤ roundHalfEven y := by
  rcases lt_or_le (Int.floor x) (Int.floor y) with hf | hf
  · have h1 := (roundHalfEven_bounds x).2
    have h2 := (roundHalfEven_bounds y).1
    omega
  · have hfe : Int.floor x = Int.floor y := le_antisymm (Int.floor_mono h) hf
    unfold roundHalfEven
    rw [hfe]
    split_ifs <;> first | omega | (exfalso; linarith)

theorem roundHalfEven_le_intCast {x : ℚ} {n : ℤ} (h : x ≤ (n : ℚ)) :
    roundHalfEven x ≤ n := by
  have := roundHalfEven_mono h
  rwa [roundHalfEven_intCast] at this

theorem intCast_le_roundHalfEven {x : ℚ} {n : ℤ} (h : (n : ℚ) ≤ x) :
    n ≤ roundHalfEven x := by
  have := roundHalfEven_mono h
  rwa [roundHalfEven_intCast] at this

theorem roundHalfEven_nonneg {x : ℚ} (h : 0 ≤ x) : 0 ≤ roundHalfEven x :=
  intCast_le_roundHalfEven (by exact_mod_cast h)

theorem roundHalfEven_eq_of_lt_half {x : ℚ} {n : ℤ} (h1 : (n : ℚ) ≤ x)
    (h2 : x < (n : ℚ) + 1/2) : roundHalfEven x = n := by
  have hfl : Int.floor x = n := by
    rw [Int.floor_eq_iff]
    exact ⟨h1, by linarith⟩
  unfold roundHalfEven
  rw [hfl]
  rw [if_pos (by linarith [h2])]

theorem roundHalfEven_eq_succ_of_gt_half {x : ℚ} {n : ℤ} (h1 : (n : ℚ) + 1/2 < x)
    (h2 : x < (n : ℚ) + 1) : roundHalfEven x = n + 1 := by
  have hfl : Int.floor x = n := by
    rw [Int.floor_eq_iff]
    exact ⟨by linarith, by linarith⟩
  unfold roundHalfEven
  rw [hfl]
  rw [if_neg (by linarith), if_pos (by linarith)]

theorem roundHalfEven_tie_even {x : ℚ} {n : ℤ} (h : x = (n : ℚ) + 1/2)
    (he : n % 2 = 0) : roundHalfEven x = n := by
  have hfl : Int.floor x = n := by
    rw [Int.floor_eq_iff]
    exact ⟨by rw [h]; linarith, by rw [h]; linarith⟩
  unfold roundHalfEven
  rw [hfl, h]
  rw [if_neg (by linarith), if_neg (by linarith), if_pos he]

theorem roundHalfEven_tie_odd {x : ℚ} {n : ℤ} (h : x = (n : ℚ) + 1/2)
    (ho : ¬ n % 2 = 0) : roundHalfEven x = n + 1 := by
  have hfl : Int.floor x = n := by
    rw [Int.floor_eq_iff]
    exact ⟨by rw [h]; linarith, by rw [h]; linarith⟩
  unfold roundHalfEven
  rw [hfl, h]
  rw [if_neg (by linarith), if_neg (by linarith), if_neg ho]

/-! ## The quantity formatter (`formatCPU`, `formatMemory`,
`convertMemoryToMiB`, `max`) from cmd/recommend.go -/

/-- Model of `fmt.Sprintf("%.0f", x)`: correctly rounded integer
decimal, ties to even, sign preserved (Go prints `-0` for a negative
value rounding to zero, hence the sign is taken before rounding). -/
def fmtF0 (x : ℚ) : String :=
  if x < 0 then "-" ++ natRepr (roundHalfEven (-x)).toNat
  else natRepr (roundHalfEven x).toNat

/-- `formatCPU` (cmd/recommend.go): values below 0.001 clamp to `"1m"`,
values below 1 print as `%.0f` millicores (two identical branches in
the source, kept here), and larger values print as `%.0f` cores. -/
def formatCPU (cpu : ℚ) : String :=
  if cpu < 1/1000 then "1m"
  else if cpu < 1/10 then fmtF0 (cpu * 1000) ++ "m"
  else if cpu < 1 then fmtF0 (cpu * 1000) ++ "m"
  else fmtF0 cpu

/-- `formatMemory` (cmd/recommend.go): at or above 1024 MiB print
`%.0f` of `memory/1024` with suffix `Gi`, otherwise `%.0f` MiB. -/
def formatMemory (memory : ℚ) : String :=
  if memory ≥ 1024 then fmtF0 (memory / 1024) ++ "Gi"
  else fmtF0 memory ++ "Mi"

/-- `convertMemoryToMiB` (cmd/recommend.go): `Sscanf("%f%s")` into a
magnitude and unit (the scan error is discarded, leaving `0` and an
empty unit), then `Gi` scales by 1024, `Mi` and any unknown unit are
taken as MiB. -/
def convertMemoryToMiB (memory : String) : ℚ :=
  match scanFloat memory.data with
  | none => 0
  | some p =>
    let unit := String.mk p.2
    if unit = "Gi" then p.1 * 1024
    else if unit = "Mi" then p.1
    else p.1

/-- The variadic `max` helper (cmd/recommend.go): fold starting from the
zero value of `float64`. -/
def maxOfValues (values : List ℚ) : ℚ :=
  values.foldl (fun maxValue value => if value > maxValue then value else maxValue) 0

/-- The limit-range recommendation record printed by
`recommendLimitRangesFunc`. -/
structure LimitRanges where
  minCPU : String
  minMemory : String
  maxCPU : String
  maxMemory : String
  defaultCPU : String
  defaultMemory : String
  defaultRequestCPU : String
  defaultRequestMemory : String
deriving DecidableEq

/-- `recommendLimitRangesFunc` (cmd/recommend.go): static suggested
bounds; the four memory bounds are converted to MiB, their maximum is
taken with the variadic `max`, and the printed `max.memory` is that
maximum reformatted with `formatMemory`. -/
def recommendLimitRangesFunc : LimitRanges :=
  let suggestedMinCPU := "50m"
  let suggestedMinMemory := "50Mi"
  let suggestedMaxCPU := "2"
  let suggestedMaxMemory := "2Gi"
  let suggestedDefaultCPU := "500m"
  let suggestedDefaultMemory := "500Mi"
  let suggestedDefaultRequestCPU := "100m"
  let suggestedDefaultRequestMemory := "100Mi"
  let minMemoryMiB := convertMemoryToMiB suggestedMinMemory
  let maxMemoryMiB := convertMemoryToMiB suggestedMaxMemory
  let defaultMemoryMiB := convertMemoryToMiB suggestedDefaultMemory
  let defaultRequestMemoryMiB := convertMemoryToMiB suggestedDefaultRequestMemory
  let maxMemory := maxOfValues
    [minMemoryMiB, maxMemoryMiB, defaultMemoryMiB, defaultRequestMemoryMiB]
  { minCPU := suggestedMinCPU
    minMemory := suggestedMinMemory
    maxCPU := suggestedMaxCPU
    maxMemory := formatMemory maxMemory
    defaultCPU := suggestedDefaultCPU
    defaultMemory := suggestedDefaultMemory
    defaultRequestCPU := suggestedDefaultRequestCPU
    defaultRequestMemory := suggestedDefaultRequestMemory }

/-- Modelled from the spec: the CPU quantity (in cores) denoted by a
formatted CPU string — a magnitude suffixed `m` denotes millicores
(cores/1000), a bare magnitude denotes cores (§3 Quantity, glossary).
The repository has no CPU parser; this interprets the formatter's
output for the monotonicity property. -/
def denotedCPUCores (s : String) : ℚ :=
  match scanFloat s.data with
  | none => 0
  | some p => if String.mk p.2 = "m" then p.1 / 1000 else p.1

/-! ## The metrics client (`queryPrometheusMetric`) -/

/-- A JSON value as it may appear inside the `value` pair of a decoded
Prometheus response. -/
inductive JsonVal where
  | str (s : String)
  | num (q : ℚ)
  | other
deriving DecidableEq

/-- One series of a decoded Prometheus query response. -/
structure PromSeries where
  value : List JsonVal
deriving DecidableEq

/-- The shape `queryPrometheusMetric` unmarshals the body into. -/
structure PromResult where
  status : String
  results : List PromSeries
deriving DecidableEq

/-- The body of the HTTP response as far as the client observes it:
unreadable, undecodable JSON, or a decoded result. -/
inductive HttpBody where
  | readError
  | undecodable
  | decoded (r : PromResult)
deriving DecidableEq

/-- The observable outcome of the HTTP GET against the backend. -/
inductive FetchOutcome where
  | transportError
  | httpResponse (statusCode : ℕ) (body : HttpBody)
deriving DecidableEq

/-- `queryPrometheusMetric` (cmd/recommend.go): every guarded failure
path prints and returns `0`; a success status with a non-empty result
set extracts `Value[1]` of the first series (string values go through
`Sscanf "%f"`, numbers are taken as-is, other types yield `0`).
`none` models the panic of the unguarded index `Value[1]` when the
decoded value array has fewer than two entries. -/
def queryPrometheusMetric : FetchOutcome → Option ℚ
  | .transportError => some 0
  | .httpResponse statusCode body =>
    if statusCode ≠ 200 then some 0
    else
      match body with
      | .readError => some 0
      | .undecodable => some 0
      | .decoded r =>
        if r.status ≠ "success" ∨ r.results = [] then some 0
        else
          match r.results with
          | [] => some 0
          | s :: _ =>
            match s.value[1]? with
            | none => none
            | some v =>
              match v with
              | JsonVal.str v =>
                match scanFloat v.data with
                | none => some 0
                | some p => some p.1
              | JsonVal.num q => some q
              | JsonVal.other => some 0

/-! ## The query construction (`queryPrometheus`) and its global state -/

/-- The process-wide mutable configuration read and written by
`queryPrometheus`: the package-level variables `timeWindow`,
`cpuPercentile` and `memoryPercentile`, modelled as explicit state. -/
structure Config where
  timeWindow : String
  cpuPercentile : ℚ
  memoryPercentile : ℚ
deriving DecidableEq

/-- The parameters interpolated into one PromQL query string. -/
structure QuerySpec where
  quantile : ℚ
  namespaceLabel : String
  containerLabel : String
  window : String
deriving DecidableEq

/-- `queryPrometheus` (cmd/recommend.go): an empty window defaults to
`"30m"` and a zero memory percentile defaults to the CPU percentile by
assignment to the package-level variables, then the four queries are
built (cpu and memory averages at quantile 0.5, the maxima at the
configured percentiles).  The first component is the state of the
globals after the call. -/
def queryPrometheus (cfg : Config) (ns container : String) :
    Config × QuerySpec × QuerySpec × QuerySpec × QuerySpec :=
  let cfg1 := if cfg.timeWindow = "" then { cfg with timeWindow := "30m" } else cfg
  let cfg2 :=
    if cfg1.memoryPercentile = 0 then { cfg1 with memoryPercentile := cfg1.cpuPercentile }
    else cfg1
  let cpuAvgQuery : QuerySpec := ⟨1/2, ns, container, cfg2.timeWindow⟩
  let cpuMaxQuery : QuerySpec := ⟨cfg2.cpuPercentile, ns, container, cfg2.timeWindow⟩
  let memoryAvgQuery : QuerySpec := ⟨1/2, ns, container, cfg2.timeWindow⟩
  let memoryMaxQuery : QuerySpec := ⟨cfg2.memoryPercentile, ns, container, cfg2.timeWindow⟩
  (cfg2, cpuAvgQuery, cpuMaxQuery, memoryAvgQuery, memoryMaxQuery)

/-! ## Bridge lemmas: parsing what the formatter prints -/

theorem ratCast_toNat {i : ℤ} (h : 0 ≤ i) : ((i.toNat : ℕ) : ℚ) = (i : ℚ) := by
  rw [← Int.cast_natCast, Int.toNat_of_nonneg h]

theorem convertMemoryToMiB_natRepr (k : ℕ) (rest : List Char)
    (h : nonNumericHead rest) :
    convertMemoryToMiB (natRepr k ++ String.mk rest) =
      if String.mk rest = "Gi" then (k : ℚ) * 1024 else (k : ℚ) := by
  have hdata : (natRepr k ++ String.mk rest).data =
      (digitsOf k).map digitChar ++ rest := by
    rw [String.data_append]; rfl
  unfold convertMemoryToMiB
  rw [hdata, scanFloat_digits k rest h]
  by_cases hg : String.mk rest = "Gi" <;> simp [hg]

theorem convertMemoryToMiB_natRepr_Mi (k : ℕ) :
    convertMemoryToMiB (natRepr k ++ "Mi") = (k : ℚ) := by
  have h : ("Mi" : String) = String.mk ['M', 'i'] := rfl
  rw [h, convertMemoryToMiB_natRepr k ['M', 'i'] ⟨by decide, by decide, by decide⟩,
    if_neg (by decide)]

theorem convertMemoryToMiB_natRepr_Gi (k : ℕ) :
    convertMemoryToMiB (natRepr k ++ "Gi") = (k : ℚ) * 1024 := by
  have h : ("Gi" : String) = String.mk ['G', 'i'] := rfl
  rw [h, convertMemoryToMiB_natRepr k ['G', 'i'] ⟨by decide, by decide, by decide⟩,
    if_pos (by decide)]

theorem convertMemoryToMiB_natRepr_bare (k : ℕ) :
    convertMemoryToMiB (natRepr k) = (k : ℚ) := by
  have hdata : (natRepr k).data = (digitsOf k).map digitChar ++ [] :=
    (List.append_nil _).symm
  unfold convertMemoryToMiB
  rw [hdata, scanFloat_digits k [] trivial]
  simp

theorem denotedCPUCores_natRepr (k : ℕ) (rest : List Char)
    (h : nonNumericHead rest) :
    denotedCPUCores (natRepr k ++ String.mk rest) =
      if String.mk rest = "m" then (k : ℚ) / 1000 else (k : ℚ) := by
  have hdata : (natRepr k ++ String.mk rest).data =
      (digitsOf k).map digitChar ++ rest := by
    rw [String.data_append]; rfl
  unfold denotedCPUCores
  rw [hdata, scanFloat_digits k rest h]

theorem denotedCPUCores_natRepr_m (k : ℕ) :
    denotedCPUCores (natRepr k ++ "m") = (k : ℚ) / 1000 := by
  have h : ("m" : String) = String.mk ['m'] := rfl
  rw [h, denotedCPUCores_natRepr k ['m'] ⟨by decide, by decide, by decide⟩,
    if_pos (by decide)]

theorem denotedCPUCores_natRepr_bare (k : ℕ) :
    denotedCPUCores (natRepr k) = (k : ℚ) := by
  have hdata : (natRepr k).data = (digitsOf k).map digitChar ++ [] :=
    (List.append_nil _).symm
  unfold denotedCPUCores
  rw [hdata, scanFloat_digits k [] trivial]
  simp

theorem fmtF0_of_nonneg {x : ℚ} (h : 0 ≤ x) :
    fmtF0 x = natRepr (roundHalfEven x).toNat := by
  unfold fmtF0
  rw [if_neg (not_lt.mpr h)]

theorem formatCPU_eval {c : ℚ} (h : 0 ≤ c) :
    formatCPU c =
      if c < 1 then natRepr (max 1 (roundHalfEven (c * 1000))).toNat ++ "m"
      else natRepr (roundHalfEven c).toNat := by
  have hnn : (0 : ℚ) ≤ c * 1000 := by linarith
  unfold formatCPU
  by_cases h1 : c < 1/1000
  · have hle : roundHalfEven (c * 1000) ≤ (1 : ℤ) :=
      roundHalfEven_le_intCast (by push_cast; linarith)
    rw [if_pos h1, if_pos (show c < 1 by linarith), max_eq_left hle]
    decide
  · push_neg at h1
    have hge : (1 : ℤ) ≤ roundHalfEven (c * 1000) :=
      intCast_le_roundHalfEven (by push_cast; linarith)
    rw [if_neg (not_lt.mpr h1), max_eq_right hge]
    by_cases h2 : c < 1/10
    · rw [if_pos h2, if_pos (show c < 1 by linarith), fmtF0_of_nonneg hnn]
    · rw [if_neg h2]
      by_cases h3 : c < 1
      · rw [if_pos h3, if_pos h3, fmtF0_of_nonneg hnn]
      · rw [if_neg h3, if_neg h3, fmtF0_of_nonneg h]

theorem formatMemory_eval {m : ℚ} (h : 0 ≤ m) :
    formatMemory m =
      if 1024 ≤ m then natRepr (roundHalfEven (m / 1024)).toNat ++ "Gi"
      else natRepr (roundHalfEven m).toNat ++ "Mi" := by
  unfold formatMemory
  by_cases h1 : (1024 : ℚ) ≤ m
  · rw [if_pos h1, if_pos h1, fmtF0_of_nonneg (div_nonneg h (by norm_num))]
  · rw [if_neg h1, if_neg h1, fmtF0_of_nonneg h]

theorem denotedCPUCores_formatCPU {c : ℚ} (h : 0 ≤ c) :
    denotedCPUCores (formatCPU c) =
      if c < 1 then ((max 1 (roundHalfEven (c * 1000)) : ℤ) : ℚ) / 1000
      else ((roundHalfEven c : ℤ) : ℚ) := by
  rw [formatCPU_eval h]
  by_cases h1 : c < 1
  · rw [if_pos h1, if_pos h1, denotedCPUCores_natRepr_m,
      ratCast_toNat (le_trans zero_le_one (le_max_left _ _))]
  · rw [if_neg h1, if_neg h1, denotedCPUCores_natRepr_bare,
      ratCast_toNat (roundHalfEven_nonneg h)]

theorem convertMemoryToMiB_formatMemory {m : ℚ} (h : 0 ≤ m) :
    convertMemoryToMiB (formatMemory m) =
      if 1024 ≤ m then ((roundHalfEven (m / 1024) : ℤ) : ℚ) * 1024
      else ((roundHalfEven m : ℤ) : ℚ) := by
  rw [formatMemory_eval h]
  by_cases h1 : (1024 : ℚ) ≤ m
  · rw [if_pos h1, if_pos h1, convertMemoryToMiB_natRepr_Gi,
      ratCast_toNat (roundHalfEven_nonneg (div_nonneg h (by norm_num)))]
  · rw [if_neg h1, if_neg h1, convertMemoryToMiB_natRepr_Mi,
      ratCast_toNat (roundHalfEven_nonneg h)]

/-- Is `c` an ASCII letter? -/
def isAsciiLetter (c : Char) : Bool :=
  (decide (65 ≤ c.toNat) && decide (c.toNat ≤ 90)) ||
  (decide (97 ≤ c.toNat) && decide (c.toNat ≤ 122))

/-- A unit token on which Go's scan of `magnitude ++ token` and the
model agree exactly: ASCII letters only (so no whitespace — `%s` takes
the whole remainder — and the float token stops right before it), not
starting with an exponent marker (which `floatToken` would consume
into the magnitude) nor with `x`/`X` (which after a `0` magnitude would
open a hexadecimal token). -/
def plainUnit (rest : List Char) : Prop :=
  (∀ c ∈ rest, isAsciiLetter c = true)
  ∧ match rest with
    | [] => True
    | c :: _ => isExpChar c = false ∧ c ≠ 'x' ∧ c ≠ 'X'

theorem plainUnit_nonNumericHead {rest : List Char} (h : plainUnit rest) :
    nonNumericHead rest := by
  obtain ⟨hall, hhead⟩ := h
  cases rest with
  | nil => trivial
  | cons c cs =>
    obtain ⟨hexp, _, _⟩ := hhead
    have hc : isAsciiLetter c = true := hall c (by simp)
    simp only [isAsciiLetter, Bool.or_eq_true, Bool.and_eq_true,
      decide_eq_true_eq] at hc
    refine ⟨?_, ?_, hexp⟩
    · have h57 : ¬ (c.toNat ≤ 57) := by omega
      simp [isDigitChar, h57]
    · intro hcdot
      rw [hcdot] at hc
      revert hc
      decide

/-! ## Claim theorems -/

/-- Claim C1, counterexample: the claim asserts round-half-away-from-zero,
but at cores = 1/16 (= 0.0625, exactly representable as a double) the
millicore value 62.5 is a tie, which `%.0f` rounds to the even neighbour:
the code prints "62m" where round-half-away-from-zero would print "63m". -/
theorem formatCPU_rounding_counterexample :
    formatCPU (1/16) = "62m" ∧ formatCPU (1/16) ≠ "63m" := by
  have hr : roundHalfEven ((1/16 : ℚ) * 1000) = 62 :=
    roundHalfEven_tie_even (by norm_num) (by decide)
  have h : formatCPU (1/16) = natRepr (62 : ℤ).toNat ++ "m" := by
    rw [formatCPU_eval (by norm_num), if_pos (by norm_num), hr,
      max_eq_right (by norm_num)]
  rw [h]
  exact ⟨by decide, by decide⟩

/-- Claim C1 (amended: ties round to even, not away from zero): for
`cores < 1` the output is `round(cores*1000)` millicores with suffix `m`,
clamped to `"1m"` whenever the rounded millicore value is 0; for
`cores >= 1` it is the rounded whole-core value with no suffix; rounding
is round-half-to-even; `formatCPU(cores) = "1m"` for all
`0 <= cores < 0.0005`; `formatCPU(0.05) = "50m"` and
`formatCPU(0.12) = "120m"`. -/
theorem formatCPU_spec :
    (∀ c : ℚ, 0 ≤ c → c < 1 →
      formatCPU c = (if roundHalfEven (c * 1000) = 0 then "1m"
        else natRepr (roundHalfEven (c * 1000)).toNat ++ "m"))
    ∧ (∀ c : ℚ, 1 ≤ c → formatCPU c = natRepr (roundHalfEven c).toNat)
    ∧ (∀ c : ℚ, 0 ≤ c → c < 1/2000 → formatCPU c = "1m")
    ∧ formatCPU (1/20) = "50m" ∧ formatCPU (3/25) = "120m" := by
  refine ⟨?_, ?_, ?_, ?_, ?_⟩
  · intro c h0 h1
    rw [formatCPU_eval h0, if_pos h1]
    have hnn : (0 : ℤ) ≤ roundHalfEven (c * 1000) :=
      roundHalfEven_nonneg (by linarith)
    by_cases hz : roundHalfEven (c * 1000) = 0
    · rw [if_pos hz, hz, max_eq_left (by norm_num)]
      decide
    · rw [if_neg hz, max_eq_right (by omega)]
  · intro c h
    rw [formatCPU_eval (by linarith), if_neg (not_lt.mpr h)]
  · intro c h0 h2
    show formatCPU c = "1m"
    unfold formatCPU
    rw [if_pos (by linarith)]
  · have hr : roundHalfEven ((1/20 : ℚ) * 1000) = 50 := by
      rw [show ((1/20 : ℚ) * 1000) = ((50 : ℤ) : ℚ) by norm_num]
      exact roundHalfEven_intCast 50
    rw [formatCPU_eval (by norm_num), if_pos (by norm_num), hr,
      max_eq_right (by norm_num)]
    decide
  · have hr : roundHalfEven ((3/25 : ℚ) * 1000) = 120 := by
      rw [show ((3/25 : ℚ) * 1000) = ((120 : ℤ) : ℚ) by norm_num]
      exact roundHalfEven_intCast 120
    rw [formatCPU_eval (by norm_num), if_pos (by norm_num), hr,
      max_eq_right (by norm_num)]
    decide

/-- Claim C1 witness: the amended millicore branch evaluated at 0.05. -/
theorem formatCPU_spec_witness :
    (0 : ℚ) ≤ 1/20 ∧ (1/20 : ℚ) < 1 ∧
    formatCPU (1/20) = (if roundHalfEven ((1/20 : ℚ) * 1000) = 0 then "1m"
      else natRepr (roundHalfEven ((1/20 : ℚ) * 1000)).toNat ++ "m") :=
  ⟨by norm_num, by norm_num, formatCPU_spec.1 (1/20) (by norm_num) (by norm_num)⟩

/-- Claim C2: `formatMemory` converts `m >= 1024` to gibibytes `m/1024`
rounded to a nearest integer with suffix `Gi`, otherwise to a nearest
integer of mebibytes with suffix `Mi`; `formatMemory(2048) = "2Gi"`; the
boundary value 1023.5 formats as `"1024Mi"` (it is below the boundary
constant 1024, consistent with the `Mi` branch). -/
theorem formatMemory_spec :
    (∀ m : ℚ, 0 ≤ m →
      (1024 ≤ m → ∃ n : ℕ, formatMemory m = natRepr n ++ "Gi" ∧
        |m / 1024 - (n : ℚ)| ≤ 1/2)
      ∧ (m < 1024 → ∃ n : ℕ, formatMemory m = natRepr n ++ "Mi" ∧
        |m - (n : ℚ)| ≤ 1/2))
    ∧ formatMemory 2048 = "2Gi"
    ∧ (formatMemory (2047/2) = "1024Mi" ∨ formatMemory (2047/2) = "1Gi") := by
  refine ⟨?_, ?_, ?_⟩
  · intro m h0
    constructor
    · intro h1
      refine ⟨(roundHalfEven (m / 1024)).toNat, ?_, ?_⟩
      · rw [formatMemory_eval h0, if_pos h1]
      · rw [ratCast_toNat (roundHalfEven_nonneg (div_nonneg h0 (by norm_num)))]
        exact abs_sub_roundHalfEven (m / 1024)
    · intro h1
      refine ⟨(roundHalfEven m).toNat, ?_, ?_⟩
      · rw [formatMemory_eval h0, if_neg (not_le.mpr h1)]
      · rw [ratCast_toNat (roundHalfEven_nonneg h0)]
        exact abs_sub_roundHalfEven m
  · have hr : roundHalfEven ((2048 : ℚ) / 1024) = 2 := by
      rw [show ((2048 : ℚ) / 1024) = ((2 : ℤ) : ℚ) by norm_num]
      exact roundHalfEven_intCast 2
    rw [formatMemory_eval (by norm_num), if_pos (by norm_num), hr]
    decide
  · left
    have hr : roundHalfEven (2047/2 : ℚ) = 1024 :=
      roundHalfEven_tie_odd (show (2047/2 : ℚ) = ((1023 : ℤ) : ℚ) + 1/2 by norm_num)
        (by decide)
    rw [formatMemory_eval (by norm_num), if_neg (by norm_num), hr]
    decide

/-- Claim C2 witness: the gibibyte branch evaluated at 2048 MiB. -/
theorem formatMemory_spec_witness :
    (0 : ℚ) ≤ 2048 ∧ (1024 : ℚ) ≤ 2048 ∧
    ∃ n : ℕ, formatMemory 2048 = natRepr n ++ "Gi" ∧
      |(2048 : ℚ) / 1024 - (n : ℚ)| ≤ 1/2 :=
  ⟨by norm_num, by norm_num, (formatMemory_spec.1 2048 (by norm_num)).1 (by norm_num)⟩

/-- Claim C3: parsing the formatted memory quantity back with
`convertMemoryToMiB` reproduces the input within the granularity of the
chosen unit: within 1 MiB below 1024 MiB, within 1024 MiB at or above. -/
theorem parseMemory_formatMemory_roundtrip :
    ∀ m : ℚ, 0 ≤ m →
      (m < 1024 → |convertMemoryToMiB (formatMemory m) - m| ≤ 1)
      ∧ (1024 ≤ m → |convertMemoryToMiB (formatMemory m) - m| ≤ 1024) := by
  intro m h0
  constructor
  · intro h1
    rw [convertMemoryToMiB_formatMemory h0, if_neg (not_le.mpr h1)]
    calc |(↑(roundHalfEven m) : ℚ) - m| = |m - ↑(roundHalfEven m)| := abs_sub_comm _ _
      _ ≤ 1/2 := abs_sub_roundHalfEven m
      _ ≤ 1 := by norm_num
  · intro h1
    rw [convertMemoryToMiB_formatMemory h0, if_pos h1]
    have habs : |m / 1024 - (↑(roundHalfEven (m / 1024)) : ℚ)| ≤ 1/2 :=
      abs_sub_roundHalfEven (m / 1024)
    have hmul : (↑(roundHalfEven (m / 1024)) : ℚ) * 1024 - m =
        ((↑(roundHalfEven (m / 1024)) : ℚ) - m / 1024) * 1024 := by
      ring
    rw [hmul, abs_mul, abs_sub_comm]
    calc |m / 1024 - (↑(roundHalfEven (m / 1024)) : ℚ)| * |(1024 : ℚ)|
        ≤ (1/2) * |(1024 : ℚ)| := by
          apply mul_le_mul_of_nonneg_right habs (abs_nonneg _)
      _ ≤ 1024 := by rw [abs_of_nonneg (by norm_num : (0:ℚ) ≤ 1024)]; norm_num

/-- Claim C3 witness: the round trip evaluated at 200 MiB. -/
theorem parseMemory_formatMemory_roundtrip_witness :
    (0 : ℚ) ≤ 200 ∧ (200 : ℚ) < 1024 ∧
    |convertMemoryToMiB (formatMemory 200) - 200| ≤ 1 :=
  ⟨by norm_num, by norm_num,
    (parseMemory_formatMemory_roundtrip 200 (by norm_num)).1 (by norm_num)⟩

/-- Claim C4: `queryPrometheusMetric` returns the scalar value of the
first series when the response is a success with a non-empty result
(both the numeric-string and the plain-number encodings), and returns 0
without aborting on every listed failure: transport error, non-200
status, unreadable body, undecodable payload, non-success status field,
and an empty result set. -/
theorem queryPrometheusMetric_contract :
    queryPrometheusMetric FetchOutcome.transportError = some 0
    ∧ (∀ statusCode body, statusCode ≠ 200 →
        queryPrometheusMetric (FetchOutcome.httpResponse statusCode body) = some 0)
    ∧ queryPrometheusMetric (FetchOutcome.httpResponse 200 HttpBody.readError) = some 0
    ∧ queryPrometheusMetric (FetchOutcome.httpResponse 200 HttpBody.undecodable) = some 0
    ∧ (∀ r : PromResult, r.status ≠ "success" →
        queryPrometheusMetric (FetchOutcome.httpResponse 200 (HttpBody.decoded r)) = some 0)
    ∧ (∀ r : PromResult, r.results = [] →
        queryPrometheusMetric (FetchOutcome.httpResponse 200 (HttpBody.decoded r)) = some 0)
    ∧ (∀ (t : JsonVal) (v : ℚ) (rest : List PromSeries),
        queryPrometheusMetric (FetchOutcome.httpResponse 200
          (HttpBody.decoded ⟨"success", ⟨[t, JsonVal.num v]⟩ :: rest⟩)) = some v)
    ∧ (∀ (t : JsonVal) (n : ℕ) (rest : List PromSeries),
        queryPrometheusMetric (FetchOutcome.httpResponse 200
          (HttpBody.decoded ⟨"success", ⟨[t, JsonVal.str (natRepr n)]⟩ :: rest⟩)) =
          some (n : ℚ)) := by
  refine ⟨rfl, ?_, rfl, rfl, ?_, ?_, fun t v rest => rfl, ?_⟩
  · intro statusCode body h
    simp [queryPrometheusMetric, h]
  · intro r h
    simp [queryPrometheusMetric, h]
  · intro r h
    simp [queryPrometheusMetric, h]
  · intro t n rest
    have hdata : (natRepr n).data = (digitsOf n).map digitChar ++ [] :=
      (List.append_nil _).symm
    have hscan : scanFloat (natRepr n).data = some ((n : ℚ), []) := by
      rw [hdata]
      exact scanFloat_digits n [] trivial
    simp [queryPrometheusMetric, hscan]

/-- Claim C4 witness: a non-200 status, a non-success status field, and
a numeric first series evaluated concretely. -/
theorem queryPrometheusMetric_contract_witness :
    queryPrometheusMetric (FetchOutcome.httpResponse 500 HttpBody.undecodable) = some 0
    ∧ queryPrometheusMetric (FetchOutcome.httpResponse 200
        (HttpBody.decoded ⟨"error", []⟩)) = some 0
    ∧ queryPrometheusMetric (FetchOutcome.httpResponse 200
        (HttpBody.decoded ⟨"success", ⟨[JsonVal.other, JsonVal.num 7]⟩ :: []⟩)) = some 7 :=
  ⟨queryPrometheusMetric_contract.2.1 500 HttpBody.undecodable (by decide),
    queryPrometheusMetric_contract.2.2.2.2.1 ⟨"error", []⟩ (by decide),
    queryPrometheusMetric_contract.2.2.2.2.2.2.1 JsonVal.other 7 []⟩

/-- Claim C5, counterexample: the claim asserts negative inputs fail with
`InvalidInput`, but the formatters are total: `formatCPU(-1)` is the
quantity string `"1m"` (the small-value branch admits negatives) and
`formatMemory(-1)` is the quantity string `"-1Mi"`. -/
theorem formatter_negative_counterexample :
    formatCPU (-1) = "1m" ∧ formatMemory (-1) = "-1Mi" := by
  constructor
  · unfold formatCPU
    rw [if_pos (by norm_num)]
  · unfold formatMemory
    rw [if_neg (by norm_num)]
    unfold fmtF0
    rw [if_pos (by norm_num)]
    have hr : roundHalfEven (-(-1) : ℚ) = 1 := by
      rw [show (-(-1) : ℚ) = ((1 : ℤ) : ℚ) by norm_num]
      exact roundHalfEven_intCast 1
    rw [hr]
    decide

/-- Claim C5 (amended: the formatters never fail): every negative CPU
input takes the clamp branch and yields the quantity string `"1m"`, and
`formatMemory(-1)` yields the quantity string `"-1Mi"`; no error path
exists.  (NaN has no counterpart among exact rational values.) -/
theorem formatter_negative_total :
    (∀ x : ℚ, x < 0 → formatCPU x = "1m") ∧ formatMemory (-1) = "-1Mi" := by
  constructor
  · intro x hx
    unfold formatCPU
    rw [if_pos (by linarith)]
  · unfold formatMemory
    rw [if_neg (by norm_num)]
    unfold fmtF0
    rw [if_pos (by norm_num)]
    have hr : roundHalfEven (-(-1) : ℚ) = 1 := by
      rw [show (-(-1) : ℚ) = ((1 : ℤ) : ℚ) by norm_num]
      exact roundHalfEven_intCast 1
    rw [hr]
    decide

/-- Claim C5 witness: the amended claim evaluated at -1. -/
theorem formatter_negative_total_witness :
    (-1 : ℚ) < 0 ∧ formatCPU (-1) = "1m" :=
  ⟨by norm_num, formatter_negative_total.1 (-1) (by norm_num)⟩

/-- Claim C6, counterexample: the claim asserts both formatters normalize
zero to a positive quantity, but `formatMemory(0) = "0Mi"`, which parses
back to 0 — a string denoting zero. -/
theorem formatMemory_zero_counterexample :
    formatMemory 0 = "0Mi" ∧ convertMemoryToMiB (formatMemory 0) = 0 := by
  have hr : roundHalfEven (0 : ℚ) = 0 := by
    rw [show (0 : ℚ) = ((0 : ℤ) : ℚ) by norm_num]
    exact roundHalfEven_intCast 0
  have h0 : formatMemory 0 = "0Mi" := by
    rw [formatMemory_eval le_rfl, if_neg (by norm_num), hr]
    decide
  refine ⟨h0, ?_⟩
  rw [h0, show ("0Mi" : String) = natRepr 0 ++ "Mi" by decide,
    convertMemoryToMiB_natRepr_Mi]
  norm_num

/-- Claim C6 (amended: only the CPU formatter clamps zero):
`formatCPU(0) = "1m"`, a positive quantity, while
`formatMemory(0) = "0Mi"`, which denotes zero. -/
theorem format_zero_clamp :
    formatCPU 0 = "1m" ∧ (0 : ℚ) < denotedCPUCores (formatCPU 0)
    ∧ formatMemory 0 = "0Mi" ∧ convertMemoryToMiB (formatMemory 0) = 0 := by
  have hcpu : formatCPU 0 = "1m" := by
    unfold formatCPU
    rw [if_pos (by norm_num)]
  have hr : roundHalfEven (0 : ℚ) = 0 := by
    rw [show (0 : ℚ) = ((0 : ℤ) : ℚ) by norm_num]
    exact roundHalfEven_intCast 0
  have hmem : formatMemory 0 = "0Mi" := by
    rw [formatMemory_eval le_rfl, if_neg (by norm_num), hr]
    decide
  refine ⟨hcpu, ?_, hmem, ?_⟩
  · rw [hcpu, show ("1m" : String) = natRepr 1 ++ "m" by decide,
      denotedCPUCores_natRepr_m]
    norm_num
  · rw [hmem, show ("0Mi" : String) = natRepr 0 ++ "Mi" by decide,
      convertMemoryToMiB_natRepr_Mi]
    norm_num

/-- Claim C7: the limit-range recommendation resolves `max.memory` as the
maximum of the four configured memory bounds on a mebibyte basis
reformatted with `formatMemory`, and the emitted `max.memory` is at least
each of the `min`, `default` and `defaultRequest` memory fields. -/
theorem recommendLimitRanges_max_invariant :
    recommendLimitRangesFunc.maxMemory =
      formatMemory (maxOfValues
        [convertMemoryToMiB recommendLimitRangesFunc.minMemory,
          convertMemoryToMiB "2Gi",
          convertMemoryToMiB recommendLimitRangesFunc.defaultMemory,
          convertMemoryToMiB recommendLimitRangesFunc.defaultRequestMemory])
    ∧ convertMemoryToMiB recommendLimitRangesFunc.minMemory ≤
        convertMemoryToMiB recommendLimitRangesFunc.maxMemory
    ∧ convertMemoryToMiB recommendLimitRangesFunc.defaultMemory ≤
        convertMemoryToMiB recommendLimitRangesFunc.maxMemory
    ∧ convertMemoryToMiB recommendLimitRangesFunc.defaultRequestMemory ≤
        convertMemoryToMiB recommendLimitRangesFunc.maxMemory := by
  have h50 : convertMemoryToMiB "50Mi" = 50 := by
    rw [show ("50Mi" : String) = natRepr 50 ++ "Mi" by decide,
      convertMemoryToMiB_natRepr_Mi]
    norm_num
  have h500 : convertMemoryToMiB "500Mi" = 500 := by
    rw [show ("500Mi" : String) = natRepr 500 ++ "Mi" by decide,
      convertMemoryToMiB_natRepr_Mi]
    norm_num
  have h100 : convertMemoryToMiB "100Mi" = 100 := by
    rw [show ("100Mi" : String) = natRepr 100 ++ "Mi" by decide,
      convertMemoryToMiB_natRepr_Mi]
    norm_num
  have h2Gi : convertMemoryToMiB "2Gi" = 2048 := by
    rw [show ("2Gi" : String) = natRepr 2 ++ "Gi" by decide,
      convertMemoryToMiB_natRepr_Gi]
    norm_num
  have hmaxv : maxOfValues
      [convertMemoryToMiB "50Mi", convertMemoryToMiB "2Gi",
        convertMemoryToMiB "500Mi", convertMemoryToMiB "100Mi"] = 2048 := by
    rw [h50, h500, h100, h2Gi]
    norm_num [maxOfValues]
  have hfmt : formatMemory 2048 = "2Gi" := by
    have hr : roundHalfEven ((2048 : ℚ) / 1024) = 2 := by
      rw [show ((2048 : ℚ) / 1024) = ((2 : ℤ) : ℚ) by norm_num]
      exact roundHalfEven_intCast 2
    rw [formatMemory_eval (by norm_num), if_pos (by norm_num), hr]
    decide
  have hmaxfield : recommendLimitRangesFunc.maxMemory = "2Gi" := by
    show formatMemory (maxOfValues
      [convertMemoryToMiB "50Mi", convertMemoryToMiB "2Gi",
        convertMemoryToMiB "500Mi", convertMemoryToMiB "100Mi"]) = "2Gi"
    rw [hmaxv, hfmt]
  refine ⟨?_, ?_, ?_, ?_⟩
  · show formatMemory _ = formatMemory _
    rfl
  · show convertMemoryToMiB "50Mi" ≤ convertMemoryToMiB recommendLimitRangesFunc.maxMemory
    rw [hmaxfield, h50, h2Gi]
    norm_num
  · show convertMemoryToMiB "500Mi" ≤ convertMemoryToMiB recommendLimitRangesFunc.maxMemory
    rw [hmaxfield, h500, h2Gi]
    norm_num
  · show convertMemoryToMiB "100Mi" ≤ convertMemoryToMiB recommendLimitRangesFunc.maxMemory
    rw [hmaxfield, h100, h2Gi]
    norm_num

/-- Claim C8: both formatters are monotonically non-decreasing in the
quantity their output denotes, including across the millicore/core and
MiB/GiB unit boundaries.  The memory denotation is the repository's own
parser `convertMemoryToMiB`; the CPU denotation is `denotedCPUCores`. -/
theorem formatter_monotone :
    ∀ x y : ℚ, 0 ≤ x → x ≤ y →
      denotedCPUCores (formatCPU x) ≤ denotedCPUCores (formatCPU y)
      ∧ convertMemoryToMiB (formatMemory x) ≤ convertMemoryToMiB (formatMemory y) := by
  intro x y hx hxy
  have hy : (0 : ℚ) ≤ y := le_trans hx hxy
  constructor
  · rw [denotedCPUCores_formatCPU hx, denotedCPUCores_formatCPU hy]
    by_cases h1 : x < 1 <;> by_cases h2 : y < 1
    · rw [if_pos h1, if_pos h2]
      have hmono : roundHalfEven (x * 1000) ≤ roundHalfEven (y * 1000) :=
        roundHalfEven_mono (by linarith)
      have hmax : max 1 (roundHalfEven (x * 1000)) ≤ max 1 (roundHalfEven (y * 1000)) :=
        max_le_max le_rfl hmono
      have hcast : ((max 1 (roundHalfEven (x * 1000)) : ℤ) : ℚ) ≤
          ((max 1 (roundHalfEven (y * 1000)) : ℤ) : ℚ) := by exact_mod_cast hmax
      linarith
    · rw [if_pos h1, if_neg h2]
      push_neg at h2
      have hle : roundHalfEven (x * 1000) ≤ (1000 : ℤ) :=
        roundHalfEven_le_intCast (by push_cast; linarith)
      have hmax : max 1 (roundHalfEven (x * 1000)) ≤ (1000 : ℤ) :=
        max_le (by norm_num) hle
      have hge : (1 : ℤ) ≤ roundHalfEven y :=
        intCast_le_roundHalfEven (by push_cast; linarith)
      have h1c : ((max 1 (roundHalfEven (x * 1000)) : ℤ) : ℚ) ≤ 1000 := by
        exact_mod_cast hmax
      have h2c : (1 : ℚ) ≤ ((roundHalfEven y : ℤ) : ℚ) := by exact_mod_cast hge
      linarith
    · exact absurd (lt_of_le_of_lt hxy h2) h1
    · rw [if_neg h1, if_neg h2]
      exact_mod_cast roundHalfEven_mono hxy
  · rw [convertMemoryToMiB_formatMemory hx, convertMemoryToMiB_formatMemory hy]
    by_cases h1 : (1024 : ℚ) ≤ x <;> by_cases h2 : (1024 : ℚ) ≤ y
    · rw [if_pos h1, if_pos h2]
      have hmono : roundHalfEven (x / 1024) ≤ roundHalfEven (y / 1024) :=
        roundHalfEven_mono (by linarith)
      have hcast : ((roundHalfEven (x / 1024) : ℤ) : ℚ) ≤
          ((roundHalfEven (y / 1024) : ℤ) : ℚ) := by exact_mod_cast hmono
      linarith
    · exact absurd (le_trans h1 hxy) h2
    · rw [if_neg h1, if_pos h2]
      push_neg at h1
      have hle : roundHalfEven x ≤ (1024 : ℤ) :=
        roundHalfEven_le_intCast (by push_cast; linarith)
      have hge : (1 : ℤ) ≤ roundHalfEven (y / 1024) :=
        intCast_le_roundHalfEven (by push_cast; rw [le_div_iff₀ (by norm_num)]; linarith)
      have h1c : ((roundHalfEven x : ℤ) : ℚ) ≤ 1024 := by exact_mod_cast hle
      have h2c : (1 : ℚ) ≤ ((roundHalfEven (y / 1024) : ℤ) : ℚ) := by
        exact_mod_cast hge
      linarith
    · rw [if_neg h1, if_neg h2]
      exact_mod_cast roundHalfEven_mono hxy

/-- Claim C8 witness: monotonicity evaluated at 0.05 and 0.12. -/
theorem formatter_monotone_witness :
    (0 : ℚ) ≤ 1/20 ∧ (1/20 : ℚ) ≤ 3/25 ∧
    (denotedCPUCores (formatCPU (1/20)) ≤ denotedCPUCores (formatCPU (3/25))
      ∧ convertMemoryToMiB (formatMemory (1/20)) ≤
          convertMemoryToMiB (formatMemory (3/25))) :=
  ⟨by norm_num, by norm_num,
    formatter_monotone (1/20) (3/25) (by norm_num) (by norm_num)⟩

/-- Claim C9, counterexample: the claim asserts a non-numeric magnitude
fails with `MalformedQuantity`, but `convertMemoryToMiB` discards the
`Sscanf` error and returns the zero-valued magnitude: on `"abc"` it
returns the value 0 instead of failing. -/
theorem convertMemoryToMiB_nonNumeric_counterexample :
    convertMemoryToMiB "abc" = 0 := rfl

/-- Claim C9 (amended: no failure on non-numeric magnitude):
`convertMemoryToMiB` interprets suffix `Gi` as ×1024 and `Mi` as ×1,
treats an unknown or missing suffix as already-mebibytes (stated over
the `plainUnit` tokens, where Go's float-token scan provably stops at
the suffix — an exponent-marker head such as `e3` is consumed into the
magnitude by Go and is not a suffix), and on a string with a
non-numeric magnitude returns 0 (the scan error is discarded) rather
than failing. -/
theorem convertMemoryToMiB_suffix_spec :
    (∀ k : ℕ, convertMemoryToMiB (natRepr k ++ "Gi") = (k : ℚ) * 1024)
    ∧ (∀ k : ℕ, convertMemoryToMiB (natRepr k ++ "Mi") = (k : ℚ))
    ∧ (∀ k : ℕ, convertMemoryToMiB (natRepr k) = (k : ℚ))
    ∧ (∀ (k : ℕ) (rest : List Char), plainUnit rest →
        String.mk rest ≠ "Gi" →
        convertMemoryToMiB (natRepr k ++ String.mk rest) = (k : ℚ))
    ∧ convertMemoryToMiB "abc" = 0 := by
  refine ⟨convertMemoryToMiB_natRepr_Gi, convertMemoryToMiB_natRepr_Mi,
    convertMemoryToMiB_natRepr_bare, ?_, rfl⟩
  intro k rest hrest hgi
  rw [convertMemoryToMiB_natRepr k rest (plainUnit_nonNumericHead hrest), if_neg hgi]

/-- Claim C9 witness: the unknown-suffix branch evaluated at `"5K"`. -/
theorem convertMemoryToMiB_suffix_spec_witness :
    plainUnit ['K'] ∧ String.mk ['K'] ≠ "Gi" ∧
    convertMemoryToMiB (natRepr 5 ++ String.mk ['K']) = (5 : ℚ) :=
  ⟨⟨by decide, by decide, by decide, by decide⟩, by decide,
    convertMemoryToMiB_suffix_spec.2.2.2.1 5 ['K']
      ⟨by decide, by decide, by decide, by decide⟩ (by decide)⟩

/-- Claim C10, counterexample: the claim asserts the engine never mutates
the caller-supplied configuration, but with an empty window and an unset
memory percentile the defaulting is written back into the package-level
variables: after one query construction the configuration no longer
holds the caller's values. -/
theorem queryPrometheus_mutation_counterexample :
    (queryPrometheus ⟨"", 99/100, 0⟩ "default" "app").1 ≠ ⟨"", 99/100, 0⟩ := by
  intro h
  have h2 := congrArg Config.timeWindow h
  simp [queryPrometheus] at h2

/-- Claim C10 (amended: the defaults are written back): when the caller
supplied a non-empty window and a non-zero memory percentile the
configuration is unchanged by a query construction; an empty window is
written back as "30m"; a zero memory percentile is written back as the
CPU percentile. -/
theorem queryPrometheus_config_spec :
    (∀ (cfg : Config) (ns container : String), cfg.timeWindow ≠ "" →
      cfg.memoryPercentile ≠ 0 → (queryPrometheus cfg ns container).1 = cfg)
    ∧ (∀ (cfg : Config) (ns container : String), cfg.timeWindow = "" →
      ((queryPrometheus cfg ns container).1).timeWindow = "30m")
    ∧ (∀ (cfg : Config) (ns container : String), cfg.memoryPercentile = 0 →
      ((queryPrometheus cfg ns container).1).memoryPercentile = cfg.cpuPercentile) := by
  refine ⟨?_, ?_, ?_⟩
  · intro cfg ns container hw hm
    simp [queryPrometheus, hw, hm]
  · intro cfg ns container hw
    simp only [queryPrometheus, hw]
    by_cases hm : cfg.memoryPercentile = 0 <;> simp [hm]
  · intro cfg ns container hm
    simp only [queryPrometheus]
    by_cases hw : cfg.timeWindow = "" <;> simp [hw, hm]

/-- Claim C10 witness: a fully supplied configuration is unchanged. -/
theorem queryPrometheus_config_spec_witness :
    ("30m" : String) ≠ "" ∧ (99/100 : ℚ) ≠ 0 ∧
    (queryPrometheus ⟨"30m", 99/100, 99/100⟩ "default" "app").1 =
      ⟨"30m", 99/100, 99/100⟩ :=
  ⟨by decide, by norm_num,
    queryPrometheus_config_spec.1 ⟨"30m", 99/100, 99/100⟩ "default" "app"
      (by decide) (by norm_num)⟩
